import Mathlib

set_option linter.unusedVariables false

/-!
Verification of the pidcat log-line classifier and formatter.

Python strings are modelled as `List Char`; Python dicts keyed by strings
as association lists (for the pid map) or as functions `List Char → Option Nat`
(for the tag-color table).  All definitions are translated from
`src/pidcat.py` and `src/terminalColors.py`.
-/

namespace Pidcat

/-! ## Python string primitives -/

/-- Whitespace characters of Python's `str.strip` / the regex class `\s` (ASCII range). -/
def isPySpace (c : Char) : Bool :=
  c = ' ' || c = '\t' || c = '\n' || c = '\r' || c = '\x0b' || c = '\x0c'

/-- Python `s.lstrip()`. -/
def pyLstrip (s : List Char) : List Char := s.dropWhile isPySpace

/-- Python `s.strip()`. -/
def pyStrip (s : List Char) : List Char :=
  ((s.dropWhile isPySpace).reverse.dropWhile isPySpace).reverse

/-- Python `s[:n]`, allowing a negative `n` (which counts from the end). -/
def pyTake (n : Int) (s : List Char) : List Char :=
  if 0 ≤ n then s.take n.toNat else s.take (s.length - (-n).toNat)

/-- Python `s.ljust(w)`. -/
def pyLjust (w : Nat) (s : List Char) : List Char :=
  s ++ List.replicate (w - s.length) ' '

/-- Python `s.rjust(w)`. -/
def pyRjust (w : Nat) (s : List Char) : List Char :=
  List.replicate (w - s.length) ' ' ++ s

/-- Python `message.replace("\t", "    ")`, performed by `getWrappedIndent`. -/
def expandTabs (s : List Char) : List Char :=
  (s.map (fun c => if c = '\t' then "    ".data else [c])).flatten

/-! ## terminalColors.py -/

def BLACK : Nat := 0

def RED : Nat := 1

def GREEN : Nat := 2

def YELLOW : Nat := 3

def BLUE : Nat := 4

def MAGENTA : Nat := 5

def CYAN : Nat := 6

def WHITE : Nat := 7

/-- The ANSI reset sequence `"\033[0m"`. -/
def RESET : List Char := "\x1b[0m".data

/-- `termColor` from terminalColors.py: the ANSI escape code for the
given foreground/background colors (empty when both are absent). -/
def termColor (foreground background : Option Nat) : List Char :=
  let codes : List (List Char) :=
    (match foreground with
     | some f => [("3" ++ toString f).data]
     | none => []) ++
    (match background with
     | some b => [("10" ++ toString b).data]
     | none => [])
  match codes with
  | [] => []
  | c0 :: rest => "\x1b[".data ++ c0 ++ (rest.map (fun c => ';' :: c)).flatten ++ ['m']

/-- `colorize` from terminalColors.py. -/
def colorize (message : List Char) (foreground background : Option Nat) : List Char :=
  termColor foreground background ++ message ++ RESET

/-! ## Tag color allocator (`getTagColor`)

The Python globals `KNOWN_TAGS` (a dict) and `LAST_USED` (a list) are
modelled as an explicit state value threaded through calls. -/

structure ColorState where
  knownTags : List Char → Option Nat
  lastUsed : List Nat

/-- The initial contents of the `KNOWN_TAGS` dict. -/
def KNOWN_TAGS_INIT : List (List Char × Nat) :=
  [("jdwp".data, WHITE), ("DEBUG".data, YELLOW), ("Process".data, WHITE),
   ("dalvikvm".data, WHITE), ("StrictMode".data, WHITE), ("AndroidRuntime".data, CYAN),
   ("ActivityThread".data, WHITE), ("ActivityManager".data, WHITE)]

/-- The initial contents of the `LAST_USED` list (the 6-color palette). -/
def LAST_USED_INIT : List Nat := [RED, BLUE, CYAN, GREEN, YELLOW, MAGENTA]

def initColorState : ColorState :=
  ⟨fun t => KNOWN_TAGS_INIT.lookup t, LAST_USED_INIT⟩

/-- `getTagColor` from pidcat.py: allocate a color for a tag based on LRU.
If the tag has no entry it is assigned `LAST_USED[0]`; then, if the resolved
color is in `LAST_USED`, it is moved to the back. -/
def getTagColor (tag : List Char) (s : ColorState) : Nat × ColorState :=
  let knownTags : List Char → Option Nat :=
    if (s.knownTags tag).isSome then s.knownTags
    else fun t => if t = tag then some (s.lastUsed.headD 0) else s.knownTags t
  let color := (knownTags tag).getD 0
  let lastUsed :=
    if color ∈ s.lastUsed then s.lastUsed.erase color ++ [color] else s.lastUsed
  (color, ⟨knownTags, lastUsed⟩)

/-- Run a sequence of `getTagColor` calls, keeping only the state. -/
def runTagColors (tags : List (List Char)) (s : ColorState) : ColorState :=
  tags.foldl (fun s t => (getTagColor t s).2) s

/-! ## Package filter (`isMatchingPackage`) -/

/-- `isMatchingPackage` from pidcat.py.  `token.find(":")` followed by the
slice `token[:index]` is rendered as `takeWhile (· ≠ ':')`. -/
def isMatchingPackage (token : List Char)
    (namedProcesses catchallPackage : List (List Char)) : Bool :=
  if catchallPackage.isEmpty && namedProcesses.isEmpty then true
  else if namedProcesses.contains token then true
  else if token.contains ':' then
    catchallPackage.contains (token.takeWhile (fun c => c ≠ ':'))
  else catchallPackage.contains token

/-! ## Message wrapping (`getWrappedIndent`) -/

/-- The `while current < len(message)` loop of `getWrappedIndent`.  The
`fuel` argument bounds the number of iterations; when the wrap area is at
least 1, `message.length` iterations always suffice, so `wrapLoop` below
is exactly the source loop on that domain (the source loop diverges when
the wrap area is not positive, see `wrapIter`). -/
def wrapLoopF (wrapArea headerSize : Nat) : Nat → List Char → List Char
  | 0, message => message
  | fuel + 1, message =>
    if message.length ≤ wrapArea then message
    else
      message.take wrapArea ++ ('\n' :: List.replicate headerSize ' ') ++
        wrapLoopF wrapArea headerSize fuel (message.drop wrapArea)

def wrapLoop (wrapArea headerSize : Nat) (message : List Char) : List Char :=
  wrapLoopF wrapArea headerSize message.length message

def getWrappedIndent (message : List Char) (width : Int) (headerSize : Nat) : List Char :=
  if width = -1 then message
  else
    let message := expandTabs message
    let wrapArea : Int := width - headerSize
    if 1 ≤ wrapArea then wrapLoop wrapArea.toNat headerSize message
    else message

/-- One iteration of the source wrap loop's control variable:
`next = min(current + wrapArea, len(message)); current = next`. -/
def wrapAdvance (msgLen wrapArea cur : Int) : Int :=
  min (cur + wrapArea) msgLen

/-- The control variable of the wrap loop after `n` iterations, starting at 0. -/
def wrapIter (msgLen wrapArea : Int) : Nat → Int
  | 0 => 0
  | n + 1 => wrapAdvance msgLen wrapArea (wrapIter msgLen wrapArea n)

/-- The wrap loop terminates iff its control variable eventually reaches the
message length. -/
def WrapTerminates (msgLen wrapArea : Int) : Prop :=
  ∃ n, msgLen ≤ wrapIter msgLen wrapArea n

/-! ## ANSI color stripping (`NO_COLOR.sub("", ·)`)

`NO_COLOR = re.compile(r"\033\[.*?m")`; `re.sub` removes every
non-overlapping match, scanning left to right.  The non-greedy `.*?m` runs
to the first `m`, and `.` cannot cross a newline. -/

/-- Scan for the terminating `m` of an escape sequence; `none` when a
newline or the end of the string intervenes (no match). -/
def takeToM : List Char → Option (List Char)
  | [] => none
  | c :: rest =>
    if c = 'm' then some rest
    else if c = '\n' then none
    else takeToM rest

/-- The attempt to match the tail `\[.*?m` of `NO_COLOR` right after an
`ESC`: the remainder after the escape sequence when it matches. -/
def escMatchAt : List Char → Option (List Char)
  | '[' :: rest2 => takeToM rest2
  | _ => none

/-- The scan of `NO_COLOR.sub("", ·)` with an explicit iteration bound:
every step consumes at least one input character, so `s.length` fuel always
suffices (`stripColors` below). -/
def stripColorsF : Nat → List Char → List Char
  | 0, s => s
  | fuel + 1, s =>
    match s with
    | [] => []
    | c :: rest =>
      if c = '\x1b' then
        match escMatchAt rest with
        | some rest3 => stripColorsF fuel rest3
        | none => c :: stripColorsF fuel rest
      else c :: stripColorsF fuel rest

/-- `NO_COLOR.sub("", s)`: remove all ANSI escape sequences. -/
def stripColors (s : List Char) : List Char :=
  stripColorsF s.length s

/-! ## Pattern library

The fixed regular expressions of pidcat.py are modelled by a small
backtracking matcher with Python `re` semantics for the constructs they
use: literals, character classes, greedy `+`/`*`/`?` with give-back,
ordered alternation, and the trailing `$` (which, for `re.match` without
MULTILINE, matches at the end of the string or just before one final
newline; `.` and every explicit class except negated ones stop at a
newline). -/

/-- The class `[a-zA-Z0-9._:]` of the package-name groups. -/
def isPkgChar (c : Char) : Bool :=
  c.isAlpha || c.isDigit || c = '.' || c = '_' || c = ':'

/-- The class `[a-z0-9]`. -/
def isLowerDigit (c : Char) : Bool := c.isLower || c.isDigit

/-- Group text of a final `(.*)$`: the remainder minus at most one trailing
newline; `none` when an interior newline blocks the match. -/
def dollarBody : List Char → Option (List Char)
  | [] => some []
  | c :: rest =>
    if c = '\n' then (if rest = [] then some [] else none)
    else (dollarBody rest).map (c :: ·)

/-- Does `(.*?)$` (equivalently `(.*)$`) succeed on `s`? -/
def dollarOK (s : List Char) : Bool := (dollarBody s).isSome

/-- One element of a regex pattern. -/
inductive RItem where
  | lit (s : List Char)
  | cls (p : Char → Bool)
  | many1 (p : Char → Bool)
  | many0 (p : Char → Bool)
  | optc (p : Char → Bool)
  | alts (xs : List (List Char))
  | tailDollar
  | endDollar

/-- Greedy repetition with give-back: try consuming `k` characters (all
already known to satisfy the class), retreating one at a time but never
below `lo`. -/
def manyGo (cont : List Char → Option (List (List Char) × List Char))
    (s : List Char) (lo : Nat) : Nat → Option (List (List Char) × List Char)
  | 0 =>
    match cont s with
    | some g => some ([] :: g.1, g.2)
    | none => none
  | k + 1 =>
    match cont (s.drop (k + 1)) with
    | some g => some (s.take (k + 1) :: g.1, g.2)
    | none => if k + 1 ≤ lo then none else manyGo cont s lo k

/-- Ordered alternation over literal alternatives, with full backtracking
into the continuation. -/
def altsGo (cont : List Char → Option (List (List Char) × List Char))
    (s : List Char) : List (List Char) → Option (List Char × (List (List Char) × List Char))
  | [] => none
  | x :: xs =>
    if x.isPrefixOf s then
      match cont (s.drop x.length) with
      | some g => some (x, g)
      | none => altsGo cont s xs
    else altsGo cont s xs

/-- Backtracking matcher for a sequence of regex items.  Returns the
consumed text of every item (in order) plus the unconsumed remainder. -/
def matchItems : List RItem → List Char → Option (List (List Char) × List Char)
  | [], s => some ([], s)
  | .lit l :: its, s =>
    if l.isPrefixOf s then
      (matchItems its (s.drop l.length)).map (fun g => (l :: g.1, g.2))
    else none
  | .cls p :: its, s =>
    match s with
    | c :: s' =>
      if p c then (matchItems its s').map (fun g => ([c] :: g.1, g.2)) else none
    | [] => none
  | .many1 p :: its, s =>
    let mx := (s.takeWhile p).length
    if mx = 0 then none else manyGo (fun s' => matchItems its s') s 1 mx
  | .many0 p :: its, s =>
    manyGo (fun s' => matchItems its s') s 0 ((s.takeWhile p).length)
  | .optc p :: its, s =>
    match s with
    | c :: s' =>
      if p c then
        match matchItems its s' with
        | some g => some ([c] :: g.1, g.2)
        | none => (matchItems its s).map (fun g => ([] :: g.1, g.2))
      else (matchItems its s).map (fun g => ([] :: g.1, g.2))
    | [] => (matchItems its []).map (fun g => ([] :: g.1, g.2))
  | .alts xs :: its, s =>
    (altsGo (fun s' => matchItems its s') s xs).map (fun g => (g.1 :: g.2.1, g.2.2))
  | .tailDollar :: its, s =>
    match dollarBody s with
    | some body => (matchItems its []).map (fun g => (body :: g.1, g.2))
    | none => none
  | .endDollar :: its, s =>
    if s = [] ∨ s = ['\n'] then (matchItems its []).map (fun g => ([] :: g.1, g.2))
    else none

/-- Greedy leading `.*` of an anchored pattern (`^.*X...`): the suffix at
the latest possible start position that makes the rest of the pattern
match wins.  `.*` cannot cross a newline, so start positions beyond a
newline are unreachable once one has been passed. -/
def scanLastMatch {α : Type} (f : List Char → Option α) : List Char → Option α
  | [] => f []
  | c :: s =>
    if c = '\n' then f (c :: s)
    else
      match scanLastMatch f s with
      | some r => some r
      | none => f (c :: s)

/-! ### `LOG_LINE = ^([A-Z])/(.+?)\( *(\d+)\): (.*?)$`

The non-greedy tag group is handled by a dedicated scan: the shortest
nonempty tag whose remainder matches `\( *(\d+)\): (.*?)$` wins. -/

/-- Matcher for `\( *(\d+)\): ` followed by the final message group
`(.*?)$`; returns the pid digits and the message body. -/
def parseParenPid (s : List Char) : Option (List Char × List Char) :=
  match s with
  | '(' :: rest =>
    let rest2 := rest.dropWhile (fun c => c = ' ')
    let digits := rest2.takeWhile Char.isDigit
    if digits.isEmpty then none
    else
      match rest2.drop digits.length with
      | ')' :: ':' :: ' ' :: msg =>
        match dollarBody msg with
        | some body => some (digits, body)
        | none => none
      | _ => none
  | _ => none

/-- The non-greedy scan for the `(.+?)` tag group (which cannot cross a
newline): after each consumed character, try the rest of the pattern. -/
def logLineScanTag (acc : List Char) : List Char → Option (List Char × List Char × List Char)
  | [] => none
  | c :: rest =>
    if c = '\n' then none
    else
      match parseParenPid rest with
      | some (pid, msg) => some (acc ++ [c], pid, msg)
      | none => logLineScanTag (acc ++ [c]) rest

/-- `LOG_LINE.match(line)`: level, tag, pid and message groups. -/
def logLineMatch (s : List Char) : Option (Char × List Char × List Char × List Char) :=
  match s with
  | c :: '/' :: rest =>
    if 'A' ≤ c ∧ c ≤ 'Z' then
      match logLineScanTag [] rest with
      | some (tag, pid, msg) => some (c, tag, pid, msg)
      | none => none
    else none
  | _ => none

/-! ### Process-start patterns -/

/-- Items of `PID_START` after its leading `^.*`:
`: Start proc (\d+):([a-zA-Z0-9._:]+)/[a-z0-9]+ for (.*)$`. -/
def PID_START_ITEMS : List RItem :=
  [.lit ": Start proc ".data, .many1 Char.isDigit, .lit [':'], .many1 isPkgChar,
   .lit ['/'], .many1 isLowerDigit, .lit " for ".data, .tailDollar]

/-- `PID_START.match(line)`: groups (pid, package, target). -/
def pidStartMatch (line : List Char) : Option (List Char × List Char × List Char) :=
  scanLastMatch (fun t =>
    match matchItems PID_START_ITEMS t with
    | some ([_, pid, _, pkg, _, _, _, tgt], _) => some (pid, pkg, tgt)
    | _ => none) line

/-- Items of `PID_START_UGID` after its leading `^.*`:
`: Start proc ([a-zA-Z0-9._:]+) for ([a-z]+ [^:]+): pid=(\d+) uid=(\d+) gids=(.*)$`. -/
def PID_START_UGID_ITEMS : List RItem :=
  [.lit ": Start proc ".data, .many1 isPkgChar, .lit " for ".data,
   .many1 Char.isLower, .lit [' '], .many1 (fun c => c ≠ ':'),
   .lit ": pid=".data, .many1 Char.isDigit, .lit " uid=".data, .many1 Char.isDigit,
   .lit " gids=".data, .tailDollar]

/-- `PID_START_UGID.match(line)`: groups (package, target, pid, uid, gids);
the target group spans `[a-z]+ [^:]+`. -/
def pidStartUgidMatch (line : List Char) :
    Option (List Char × List Char × List Char × List Char × List Char) :=
  scanLastMatch (fun t =>
    match matchItems PID_START_UGID_ITEMS t with
    | some ([_, pkg, _, tgtA, sp, tgtB, _, pid, _, uid, _, gids], _) =>
      some (pkg, tgtA ++ sp ++ tgtB, pid, uid, gids)
    | _ => none) line

/-- Items of `PID_START_DALVIK` (fully anchored):
`^E/dalvikvm\(\s*(\d+)\): >>>>> ([a-zA-Z0-9._:]+) \[ userId:0 \| appId:(\d+) \]$`. -/
def PID_START_DALVIK_ITEMS : List RItem :=
  [.lit "E/dalvikvm(".data, .many0 isPySpace, .many1 Char.isDigit,
   .lit "): >>>>> ".data, .many1 isPkgChar, .lit " [ userId:0 | appId:".data,
   .many1 Char.isDigit, .lit " ]".data, .endDollar]

/-- `PID_START_DALVIK.match(line)`: groups (pid, package, uid). -/
def pidStartDalvikMatch (line : List Char) : Option (List Char × List Char × List Char) :=
  match matchItems PID_START_DALVIK_ITEMS line with
  | some ([_, _, pid, _, pkg, _, uid, _, _], _) => some (pid, pkg, uid)
  | _ => none

/-- `getStartedProcesses` from pidcat.py: try `PID_START`,
`PID_START_UGID`, `PID_START_DALVIK` in that order and normalize into
(pid, uid, gids, package, target) with absent fields empty. -/
def getStartedProcesses (line : List Char) :
    Option (List Char × List Char × List Char × List Char × List Char) :=
  match pidStartMatch line with
  | some (startedPID, startedPackage, startedTarget) =>
    some (startedPID, [], [], startedPackage, startedTarget)
  | none =>
    match pidStartUgidMatch line with
    | some (startedPackage, startedTarget, startedPID, startedUID, startedGIDs) =>
      some (startedPID, startedUID, startedGIDs, startedPackage, startedTarget)
    | none =>
      match pidStartDalvikMatch line with
      | some (startedPID, startedPackage, startedUID) =>
        some (startedPID, startedUID, [], startedPackage, [])
      | none => none

/-! ### Process-termination patterns -/

/-- Items of `PID_KILL = ^Killing (\d+):([a-zA-Z0-9._:]+)/[^:]+: (.*)$`. -/
def PID_KILL_ITEMS : List RItem :=
  [.lit "Killing ".data, .many1 Char.isDigit, .lit [':'], .many1 isPkgChar,
   .lit ['/'], .many1 (fun c => c ≠ ':'), .lit ": ".data, .tailDollar]

/-- `PID_KILL.match(message)`: groups (pid, packageLine). -/
def pidKillMatch (message : List Char) : Option (List Char × List Char) :=
  match matchItems PID_KILL_ITEMS message with
  | some ([_, pid, _, pkg, _, _, _, _], _) => some (pid, pkg)
  | _ => none

/-- Items of `PID_LEAVE = ^No longer want ([a-zA-Z0-9._:]+) \(pid (\d+)\): .*$`. -/
def PID_LEAVE_ITEMS : List RItem :=
  [.lit "No longer want ".data, .many1 isPkgChar, .lit " (pid ".data,
   .many1 Char.isDigit, .lit "): ".data, .tailDollar]

/-- `PID_LEAVE.match(message)`: groups (packageLine, pid). -/
def pidLeaveMatch (message : List Char) : Option (List Char × List Char) :=
  match matchItems PID_LEAVE_ITEMS message with
  | some ([_, pkg, _, pid, _, _], _) => some (pkg, pid)
  | _ => none

/-- Items of `PID_DEATH = ^Process ([a-zA-Z0-9._:]+) \(pid (\d+)\) has died.?$`
(the unescaped `.` is any non-newline character, optional). -/
def PID_DEATH_ITEMS : List RItem :=
  [.lit "Process ".data, .many1 isPkgChar, .lit " (pid ".data,
   .many1 Char.isDigit, .lit ") has died".data, .optc (fun c => c ≠ '\n'), .endDollar]

/-- `PID_DEATH.match(message)`: groups (packageLine, pid). -/
def pidDeathMatch (message : List Char) : Option (List Char × List Char) :=
  match matchItems PID_DEATH_ITEMS message with
  | some ([_, pkg, _, pid, _, _, _], _) => some (pkg, pid)
  | _ => none

/-- `getDeadProcesses` from pidcat.py.  Only evaluated for the fixed
activity-manager tag; tries `PID_KILL`, `PID_LEAVE`, `PID_DEATH` in order
with their per-form group index mapping, and yields (pid, packageLine)
only when the package matches the filters and the pid is tracked
(the source's `(None, None)` result is modelled as `none`). -/
def getDeadProcesses (tag message : List Char) (pidsSet : List (List Char))
    (namedProcesses catchallPackage : List (List Char)) : Option (List Char × List Char) :=
  if tag ≠ "ActivityManager".data then none
  else
    let keep : List Char → List Char → Option (List Char × List Char) :=
      fun pid packageLine =>
        if isMatchingPackage packageLine namedProcesses catchallPackage
            && pidsSet.contains pid then
          some (pid, packageLine)
        else none
    (match pidKillMatch message with
     | some (pid, packageLine) => keep pid packageLine
     | none => none) <|>
    (match pidLeaveMatch message with
     | some (packageLine, pid) => keep pid packageLine
     | none => none) <|>
    (match pidDeathMatch message with
     | some (packageLine, pid) => keep pid packageLine
     | none => none)

/-! ### Remaining recognizers -/

/-- Does `needle` occur as a contiguous subsequence of the haystack? -/
def containsSeq (needle : List Char) : List Char → Bool
  | [] => needle.isEmpty
  | c :: rest => needle.isPrefixOf (c :: rest) || containsSeq needle rest

/-- `NATIVE_TAGS_LINE.match(line)` with pattern `.*nativeGetEnabledTags.*`:
the leading `.*` cannot cross a newline, so the needle must occur in the
first line of `s`. -/
def nativeTagsMatch (s : List Char) : Bool :=
  containsSeq "nativeGetEnabledTags".data (s.takeWhile (fun c => c ≠ '\n'))

/-- The position scan of `BACKTRACE_LINE`'s `(.*?)pc\s(.*?)$` part. -/
def backtraceScan : List Char → Bool
  | [] => false
  | c :: rest =>
    (c = 'p' &&
      (match rest with
       | 'c' :: d :: rest2 => isPySpace d && dollarOK rest2
       | _ => false))
    || (c ≠ '\n' && backtraceScan rest)

/-- `BACKTRACE_LINE.match(s)` with pattern `^#(.*?)pc\s(.*?)$`, as a
recognizer (the source only tests the match for being non-`None`). -/
def backtraceMatch (s : List Char) : Bool :=
  match s with
  | '#' :: rest => backtraceScan rest
  | _ => false

/-! ### Log levels -/

/-- `LOG_LEVELS = "VDIWEF"`. -/
def LOG_LEVELS : List Char := ['V', 'D', 'I', 'W', 'E', 'F']

/-- `LOG_LEVELS_MAP = {level: index for index, level in enumerate(LOG_LEVELS)}`. -/
def LOG_LEVELS_MAP (level : Char) : Option Nat :=
  (([('V', 0), ('D', 1), ('I', 2), ('W', 3), ('E', 4), ('F', 5)] : List (Char × Nat)).lookup level)

/-- The severity gate of `writeLogLine`:
`level in LOG_LEVELS_MAP and LOG_LEVELS_MAP[level] < logLevel`. -/
def severitySuppressed (level : Char) (logLevel : Nat) : Bool :=
  match LOG_LEVELS_MAP level with
  | some idx => idx < logLevel
  | none => false

/-! ### Message decoration rules -/

/-- Items of `STRICT_MODE = ^(StrictMode policy violation)(; ~duration=)(\d+ ms)`. -/
def STRICT_MODE_ITEMS : List RItem :=
  [.lit "StrictMode policy violation".data, .lit "; ~duration=".data,
   .many1 Char.isDigit, .lit " ms".data]

/-- The StrictMode substitution
`STRICT_MODE.sub(r"\1%s\2%s\3%s" % (termColor(RED), termColor(YELLOW), RESET), message)`:
the pattern is anchored, so only a leading match is rewritten; the text
after the match is preserved. -/
def strictModeSub (message : List Char) : List Char :=
  match matchItems STRICT_MODE_ITEMS message with
  | some ([g1, g2, g3a, g3b], rest) =>
    g1 ++ termColor (some RED) none ++ g2 ++ termColor (some YELLOW) none ++
      (g3a ++ g3b) ++ RESET ++ rest
  | _ => message

/-- Items of `COLOR_GC` up to `paused \d+ms` (the optional `(?:\+\d+ms)?`
suffix is handled separately, see `colorGCSub`). -/
def COLOR_GC_ITEMS : List RItem :=
  [.lit "GC_".data,
   .alts ["CONCURRENT".data, "FOR_MALLOC".data, "FOR_ALLOC".data,
          "EXTERNAL_ALLOC".data, "EXPLICIT".data],
   .lit [' '],
   .lit "freed ".data, .optc (fun c => c = '<'), .many1 Char.isDigit, .cls (fun c => c ≠ '\n'),
   .lit ", ".data, .many1 Char.isDigit, .lit "% free ".data, .many1 Char.isDigit,
   .cls (fun c => c ≠ '\n'), .lit ['/'], .many1 Char.isDigit, .cls (fun c => c ≠ '\n'),
   .lit ", ".data,
   .lit "paused ".data, .many1 Char.isDigit, .lit "ms".data]

/-- Items of the optional `(?:\+\d+ms)?` tail of `COLOR_GC`. -/
def COLOR_GC_EXT_ITEMS : List RItem := [.lit ['+'], .many1 Char.isDigit, .lit "ms".data]

/-- The garbage-collection substitution
`COLOR_GC.sub(r"\1%s\2%s\3%s\4%s" % (termColor(GREEN), RESET, termColor(YELLOW), RESET), message)`
(applied only when `--color-gc` is set).  The optional `(?:\+\d+ms)?` part
extends group 4 greedily when it matches; since the pattern ends right
after it, its failure never forces backtracking into earlier groups. -/
def colorGCSub (message : List Char) : List Char :=
  match matchItems COLOR_GC_ITEMS message with
  | some ([gc, alt, sp, fr, lt, d1, c1, l2, d2, l3, d3, c2, sl, d4, c3, l4, pa, d5, ms], rest) =>
    let g1 := gc ++ alt ++ sp
    let g2 := fr ++ lt ++ d1 ++ c1
    let g3 := l2 ++ d2 ++ l3 ++ d3 ++ c2 ++ sl ++ d4 ++ c3 ++ l4
    let g4base := pa ++ d5 ++ ms
    let ext :=
      match matchItems COLOR_GC_EXT_ITEMS rest with
      | some ([p, d6, ms2], rest2) => some (p ++ d6 ++ ms2, rest2)
      | _ => none
    let g4 := g4base ++ (match ext with | some e => e.1 | none => [])
    let rest2 := match ext with | some e => e.2 | none => rest
    g1 ++ termColor (some GREEN) none ++ g2 ++ RESET ++ g3 ++
      termColor (some YELLOW) none ++ g4 ++ RESET ++ rest2
  | _ => message

/-! ## Processing state, configuration and the per-line driver -/

/-- `State` from pidcat.py.  The `pidsMap` dict is an association list
with unique keys. -/
structure State where
  pidsMap : List (List Char × List Char)
  lastTag : Option (List Char)
  appPID : Option (List Char)
  logLevel : Nat
  namedProcesses : List (List Char)
  catchallPackage : List (List Char)
deriving DecidableEq

/-- Dict assignment `m[k] = v`: overwrite an existing entry, else append. -/
def dictInsert (k v : List Char) (m : List (List Char × List Char)) :
    List (List Char × List Char) :=
  if (m.lookup k).isSome then m.map (fun p => if p.1 = k then (k, v) else p)
  else m ++ [(k, v)]

/-- Dict deletion `del m[k]`. -/
def dictErase (k : List Char) (m : List (List Char × List Char)) :
    List (List Char × List Char) :=
  m.filter (fun p => p.1 ≠ k)

/-- The fields of `TextWriter` consulted by `writeLogLine` (the output
file only receives the color-stripped text of the same events). -/
structure TextWriter where
  consoleWidth : Int
  showColors : Bool

/-- The fields of `Args` consulted by `writeLogLine`.  The user-supplied
tag filter patterns of `--tag` / `--ignore-tag` are applied through
`isMatchingTag`, whose regex branch interprets arbitrary user regexes;
that decision is abstracted as an opaque boolean predicate on the tag
(`none` models an absent/empty filter list, which Python treats as
falsy), since no claim depends on its internals. -/
structure Args where
  all : Bool
  colorGC : Bool
  showPID : Bool
  showPackage : Bool
  alwaysShowTags : Bool
  tagPred : Option (List Char → Bool)
  ignoreTagPred : Option (List Char → Bool)
  pidWidth : Nat
  packageWidth : Nat
  tagWidth : Nat

/-- One call of the local `writeOutput`: the constructor records which
call site produced the text (process-start banner, process-end banner, or
an ordinary formatted log line); the payload is the exact `outputLine`
argument, before any per-destination color stripping. -/
inductive OutEvent where
  | startBanner (text : List Char)
  | endBanner (text : List Char)
  | logLine (text : List Char)
deriving DecidableEq

def OutEvent.isStart : OutEvent → Bool
  | .startBanner _ => true
  | _ => false

def OutEvent.isEnd : OutEvent → Bool
  | .endBanner _ => true
  | _ => false

def OutEvent.isLog : OutEvent → Bool
  | .logLine _ => true
  | _ => false

/-- The result of processing one line: the final `State` (the `pidsMap`
dict is mutated in place by the source and therefore persists through
every early `return`, while the locals `lastTag` / `appPid` are written
back to the state only at the very end of the function), the tag-color
state, and the emitted output events. -/
structure WriteRes where
  state : State
  colors : ColorState
  outputs : List OutEvent

/-- Python truthiness of an optional string (`None` and `""` are falsy). -/
def pyTruthy : Option (List Char) → Bool
  | some s => !s.isEmpty
  | none => false

/-- The owner-pid column of `writeLogLine` (guarded by
`args.showPID and owner`).  Returns the appended text, the header-size
contribution, the updated color state, and the `owner` local, which the
source truncates in place so the package column sees the truncated value. -/
def pidSection (args : Args) (owner : Option (List Char)) (cs : ColorState) :
    List Char × Nat × ColorState × Option (List Char) :=
  if args.showPID && pyTruthy owner then
    let o := owner.getD []
    let (pidColor, cs) := getTagColor o cs
    let o :=
      if args.pidWidth < o.length then pyTake ((args.pidWidth : Int) - 3) o ++ "...".data
      else o
    (colorize (pyLjust args.pidWidth o) (some pidColor) none ++ "  ".data,
     args.pidWidth + 2, cs, some o)
  else ([], 0, cs, owner)

/-- The package-name column of `writeLogLine` (guarded by
`args.showPackage and owner`), resolving the owner through the pid map
with an `UNKNOWN(pid)` fallback. -/
def pkgSection (args : Args) (owner : Option (List Char))
    (pidsMap : List (List Char × List Char)) (cs : ColorState) :
    List Char × Nat × ColorState :=
  if args.showPackage && pyTruthy owner then
    let o := owner.getD []
    let packageName := (pidsMap.lookup o).getD ("UNKNOWN(".data ++ o ++ [')'])
    let (pkgColor, cs) := getTagColor packageName cs
    let packageName :=
      if args.packageWidth < packageName.length then
        pyTake ((args.packageWidth : Int) - 3) packageName ++ "...".data
      else packageName
    (colorize (pyLjust args.packageWidth packageName) (some pkgColor) none ++ "  ".data,
     args.packageWidth + 2, cs)
  else ([], 0, cs)

/-- The tag column of `writeLogLine` (rendered only when the tag differs
from `lastTag` or `--always-show-tags` is set, otherwise blank padding of
the same width); updates the `lastTag` local when rendered. -/
def tagSection (args : Args) (tag : List Char) (lastTag : Option (List Char))
    (cs : ColorState) : List Char × Nat × ColorState × Option (List Char) :=
  if 0 < args.tagWidth then
    if some tag ≠ lastTag || args.alwaysShowTags then
      let lastTag := some tag
      let (color, cs) := getTagColor tag cs
      let tag :=
        if args.tagWidth < tag.length then pyTake ((args.tagWidth : Int) - 3) tag ++ "...".data
        else tag
      let tag := if args.showPackage then pyRjust args.tagWidth tag else pyLjust args.tagWidth tag
      (colorize tag (some color) none ++ [' '], args.tagWidth + 1, cs, lastTag)
    else (List.replicate args.tagWidth ' ' ++ [' '], args.tagWidth + 1, cs, lastTag)
  else ([], 0, cs, lastTag)

/-- The bracketed severity column with its per-level foreground/background
color pairs. -/
def levelSection (showColors : Bool) (level : Char) : List Char × Nat :=
  let levelStr := [' ', level, ' ']
  let buf :=
    if showColors then
      let foreground :=
        (([('V', WHITE), ('D', BLACK), ('I', BLACK), ('W', BLACK), ('E', BLACK), ('F', BLACK)]
          : List (Char × Nat)).lookup level).getD WHITE
      let background :=
        (([('V', BLACK), ('D', BLUE), ('I', GREEN), ('W', YELLOW), ('E', RED), ('F', RED)]
          : List (Char × Nat)).lookup level).getD BLACK
      colorize levelStr (some foreground) (some background)
    else levelStr
  (buf ++ [' '], 3 + 1)

/-- The ordered message decoration rules: StrictMode always, the GC rule
only under `--color-gc` (insertion order of the `messageRules` dict). -/
def applyMessageRules (args : Args) (message : List Char) : List Char :=
  let message := strictModeSub message
  if args.colorGC then colorGCSub message else message

/-- The process-start banner block's `lineBuffer`. -/
def startBannerText (args : Args) (width : Int)
    (startedPID startedUID startedGIDs startedPackage startedTarget : List Char) : List Char :=
  let baseLevelSize := 3 + 1
  let currentHeaderSize :=
    (if args.showPackage then args.packageWidth + 2 else 0) + args.tagWidth + baseLevelSize
  ['\n'] ++ colorize (List.replicate (currentHeaderSize - 1) ' ') none (some WHITE) ++
    getWrappedIndent (" Process ".data ++ startedPackage ++ " created for ".data ++
      startedTarget ++ ['\n']) width currentHeaderSize ++
    colorize (List.replicate (currentHeaderSize - 1) ' ') none (some WHITE) ++
    " PID: ".data ++ startedPID ++ "   UID: ".data ++ startedUID ++
    "   GIDs: ".data ++ startedGIDs ++ ['\n']

/-- The process-end banner block's `lineBuffer`. -/
def endBannerText (args : Args) (deadPID deadProcName : List Char) : List Char :=
  let baseLevelSize := 3 + 1
  let currentHeaderSize :=
    (if args.showPackage then args.packageWidth + 2 else 0) + args.tagWidth + baseLevelSize
  ['\n'] ++ colorize (List.replicate (currentHeaderSize - 1) ' ') none (some RED) ++
    " Process ".data ++ deadProcName ++ " (PID: ".data ++ deadPID ++ ") ended".data ++ ['\n']

/-- `writeLogLine` from pidcat.py: process one raw line.  The source
mutates the `pidsMap` dict in place (so those mutations survive every
early `return`), while `lastTag` and `appPid` are plain locals written
back to the state only on the final line of the function — on a filtered
line they are lost. -/
def writeLogLine (line : List Char) (state : State) (args : Args)
    (textWriter : TextWriter) (cs : ColorState) : WriteRes :=
  let width := textWriter.consoleWidth
  let showColors := textWriter.showColors
  if nativeTagsMatch line then ⟨state, cs, []⟩
  else
    match logLineMatch line with
    | none => ⟨state, cs, []⟩
    | some (level, tag0, owner0, message0) =>
      let tag := pyStrip tag0
      let startedProcess := getStartedProcesses line
      let (pidsMap1, appPid1, lastTag1, outs1) :=
        match startedProcess with
        | some (startedPID, startedUID, startedGIDs, startedPackage, startedTarget) =>
          if isMatchingPackage startedPackage state.namedProcesses state.catchallPackage then
            (dictInsert startedPID startedPackage state.pidsMap, some startedPID,
             (none : Option (List Char)),
             [OutEvent.startBanner
               (startBannerText args width startedPID startedUID startedGIDs
                 startedPackage startedTarget)])
          else (state.pidsMap, state.appPID, state.lastTag, ([] : List OutEvent))
        | none => (state.pidsMap, state.appPID, state.lastTag, ([] : List OutEvent))
      let (pidsMap2, lastTag2, outs2) :=
        match getDeadProcesses tag message0 (pidsMap1.map Prod.fst)
            state.namedProcesses state.catchallPackage with
        | some (deadPID, deadProcName) =>
          (dictErase deadPID pidsMap1, (none : Option (List Char)),
           [OutEvent.endBanner (endBannerText args deadPID deadProcName)])
        | none => (pidsMap1, lastTag1, ([] : List OutEvent))
      let outsB := outs1 ++ outs2
      if !args.all && (pidsMap2.lookup owner0).isNone then
        ⟨{ state with pidsMap := pidsMap2 }, cs, outsB⟩
      else if severitySuppressed level state.logLevel then
        ⟨{ state with pidsMap := pidsMap2 }, cs, outsB⟩
      else if (match args.ignoreTagPred with | some p => p tag | none => false) then
        ⟨{ state with pidsMap := pidsMap2 }, cs, outsB⟩
      else if (match args.tagPred with | some p => !p tag | none => false) then
        ⟨{ state with pidsMap := pidsMap2 }, cs, outsB⟩
      else
        let (message1, owner1) :=
          if tag = "DEBUG".data && backtraceMatch (pyLstrip message0) then
            (pyLstrip message0, appPid1)
          else (message0, some owner0)
        let (buf1, hs1, cs1, owner2) := pidSection args owner1 cs
        let (buf2, hs2, cs2) := pkgSection args owner2 pidsMap2 cs1
        let (buf3, hs3, cs3, lastTag3) := tagSection args tag lastTag2 cs2
        let (buf4, hs4) := levelSection showColors level
        let message2 := applyMessageRules args message1
        let currentHeaderSize := hs1 + hs2 + hs3 + hs4
        let lineBuffer :=
          buf1 ++ buf2 ++ buf3 ++ buf4 ++ getWrappedIndent message2 width currentHeaderSize
        ⟨{ state with pidsMap := pidsMap2, lastTag := lastTag3, appPID := appPid1 }, cs3,
         outsB ++ [OutEvent.logLine lineBuffer]⟩

/-! ## Wrapped-output decomposition (used for claim C7) -/

/-- Join segments with a separator (how the wrapped output decomposes). -/
def sepJoin (sep : List Char) : List (List Char) → List Char
  | [] => []
  | [x] => x
  | x :: y :: xs => x ++ sep ++ sepJoin sep (y :: xs)

/-! ## Well-formed escape sequences (used for claim C8)

Stripping is not idempotent in general: removing a match can butt an
earlier `ESC` against a later `[...m`, creating a fresh match
(counterexample `"\x1b\x1b[m[m"`).  It is idempotent on strings whose
every `ESC` begins a complete escape sequence. -/

/-- Does the text after an `ESC` start a complete escape sequence
`[ ... m` (terminated before any newline)? -/
def escSeqAt : List Char → Bool
  | c2 :: v => c2 = '[' && (takeToM v).isSome
  | [] => false

/-- A string in which every occurrence of `ESC` begins a complete escape
sequence `ESC [ ... m`. -/
def escWellFormed : List Char → Bool
  | [] => true
  | c :: rest => (if c = '\x1b' then escSeqAt rest else true) && escWellFormed rest

/-! ## Concrete lines, states and configurations used by claims C3 to C6 -/

/-- The concrete line of claim C3. -/
def c3Line : List Char :=
  "I/ActivityManager( 1234): Start proc 1234:com.example.app/u0a123 for activity ...".data



/-- The concrete termination message of claim C4. -/
def c4DeathMsg : List Char := "Process com.example.app (pid 1234) has died.".data

/-- The concrete line, state and configuration of the C4 counterexample:
pid `1234` is tracked, but the catch-all filter is `["com.other"]`, which
`com.example.app` does not match. -/
def c4Line : List Char :=
  "I/ActivityManager( 77): Process com.example.app (pid 1234) has died.".data

def c4State : State :=
  ⟨[("1234".data, "com.example.app".data)], none, none, 0, [], ["com.other".data]⟩

def c4Args : Args := ⟨false, false, false, false, false, none, none, 6, 20, 20⟩

def c4TW : TextWriter := ⟨80, true⟩



/-- The concrete line and state of the C5 counterexample: the start line
matches and its package passes the (empty, match-everything) filter, so a
start banner is emitted and the map is updated — but the line's owner pid
`99` is not tracked, the line is suppressed by the ownership filter, and
the early `return` skips the final `state.appPID = appPid` write-back. -/
def c5Line : List Char :=
  "I/ActivityManager( 99): Start proc 10:com.app/u0a1 for service X".data

def c5State : State := ⟨[], some "T".data, none, 0, [], []⟩

/-- The concrete instance of the C5 witness: the same start line with
owner pid `10`, which after the insertion passes the ownership filter, so
the line is printed and `appPID` is persisted. -/
def c5wLine : List Char :=
  "I/ActivityManager( 10): Start proc 10:com.app/u0a1 for service X".data

/-! ## Theorems -/

/-- `getWrappedIndent` from pidcat.py.  For `width = -1` the message is
returned unwrapped; otherwise tabs are expanded and the greedy wrap loop
runs.  When `width - headerSize ≤ 0` and the expanded message is nonempty
the source loop diverges (modelled separately by `wrapIter`); the `else`
branch below returns the message only so that the function is total, and no
theorem relies on that branch outside the empty-message case. -/

theorem takeToM_length : ∀ {s r : List Char}, takeToM s = some r → r.length < s.length := by
  intro s
  induction s with
  | nil => intro r h; simp [takeToM] at h
  | cons c rest ih =>
    intro r h
    simp only [takeToM] at h
    split at h
    · cases h; simp
    · split at h
      · cases h
      · have := ih h
        simp only [List.length_cons]
        omega

/-! ## General list helpers -/

theorem takeWhile_all_append {p : Char → Bool} :
    ∀ (a : List Char) (c : Char) (b : List Char), (∀ x ∈ a, p x = true) → p c = false →
      (a ++ c :: b).takeWhile p = a := by
  intro a c b ha hc
  induction a with
  | nil => simp [List.takeWhile, hc]
  | cons x xs ih =>
    have hx : p x = true := ha x (by simp)
    simp only [List.cons_append, List.takeWhile_cons, hx, if_true]
    rw [ih (fun y hy => ha y (by simp [hy]))]

/-! ## Claim C2: the package filter predicate -/

/-- C2: with both filter lists empty `isMatchingPackage` accepts every
token; an exact named-process match accepts; otherwise the token's prefix
up to its first `:` (or the whole token when it has no `:`) is tested for
exact membership in the catch-all list; in particular with catch-all
filter `["com.example.app"]` the token `"com.example.app:remote"` is
accepted and `"com.example.other"` is rejected. -/
theorem C2_isMatchingPackage :
    (∀ token : List Char, isMatchingPackage token [] [] = true)
    ∧ (∀ (token : List Char) (named catchall : List (List Char)),
        token ∈ named → isMatchingPackage token named catchall = true)
    ∧ (∀ (a b : List Char) (named catchall : List (List Char)),
        (catchall.isEmpty && named.isEmpty) = false → (a ++ ':' :: b) ∉ named →
        (∀ x ∈ a, x ≠ ':') →
        isMatchingPackage (a ++ ':' :: b) named catchall = catchall.contains a)
    ∧ (∀ (token : List Char) (named catchall : List (List Char)),
        (catchall.isEmpty && named.isEmpty) = false → token ∉ named →
        token.contains ':' = false →
        isMatchingPackage token named catchall = catchall.contains token)
    ∧ isMatchingPackage "com.example.app:remote".data [] ["com.example.app".data] = true
    ∧ isMatchingPackage "com.example.other".data [] ["com.example.app".data] = false := by
  refine ⟨?_, ?_, ?_, ?_, by decide, by decide⟩
  · intro token; simp [isMatchingPackage]
  · intro token named catchall h
    simp only [isMatchingPackage]
    by_cases h0 : (catchall.isEmpty && named.isEmpty) = true
    · simp [h0]
    · simp only [Bool.not_eq_true] at h0
      simp [h0, List.elem_iff, h]
  · intro a b named catchall h0 hnot ha
    have hmem : ':' ∈ a ++ ':' :: b := by simp
    have htw : (a ++ ':' :: b).takeWhile (fun c => !decide (c = ':')) = a := by
      apply takeWhile_all_append
      · intro x hx
        simpa using ha x hx
      · simp
    simp [isMatchingPackage, h0, List.elem_iff, hnot, hmem, htw]
  · intro token named catchall h0 hnot hc
    have hcm : ':' ∉ token := by
      intro hm
      rw [← List.elem_iff] at hm
      simp [List.contains] at hm hc
      exact absurd hm (by simp [hc])
    simp [isMatchingPackage, h0, List.elem_iff, hnot, hcm]

theorem C2_isMatchingPackage_witness :
    isMatchingPackage ("com.example.app".data ++ ':' :: "remote".data) []
        ["com.example.app".data] =
      (["com.example.app".data] : List (List Char)).contains "com.example.app".data := by
  exact C2_isMatchingPackage.2.2.1 "com.example.app".data "remote".data []
    ["com.example.app".data] (by decide) (by decide) (by decide)

theorem sepJoin_cons (sep x : List Char) (xs : List (List Char)) (h : xs ≠ []) :
    sepJoin sep (x :: xs) = x ++ sep ++ sepJoin sep xs := by
  cases xs with
  | nil => exact absurd rfl h
  | cons y ys => rfl

theorem wrapLoopF_spec (wrapArea headerSize : Nat) (hwa : 1 ≤ wrapArea) :
    ∀ (fuel : Nat) (message : List Char), message.length ≤ fuel →
      ∃ segs : List (List Char),
        wrapLoopF wrapArea headerSize fuel message =
          sepJoin ('\n' :: List.replicate headerSize ' ') segs
        ∧ (∀ seg ∈ segs, seg.length ≤ wrapArea)
        ∧ segs.flatten = message
        ∧ segs ≠ [] := by
  intro fuel
  induction fuel with
  | zero =>
    intro m hm
    have hnil : m = [] := List.eq_nil_of_length_eq_zero (Nat.le_zero.mp hm)
    subst hnil
    exact ⟨[[]], by simp [wrapLoopF, sepJoin], by simp, by simp, by simp⟩
  | succ n ih =>
    intro m hm
    by_cases hle : m.length ≤ wrapArea
    · refine ⟨[m], by simp [wrapLoopF, hle, sepJoin], ?_, by simp, by simp⟩
      intro seg hs
      simp only [List.mem_singleton] at hs
      simpa [hs] using hle
    · obtain ⟨segs, h1, h2, h3, h4⟩ := ih (m.drop wrapArea) (by simp; omega)
      refine ⟨m.take wrapArea :: segs, ?_, ?_, ?_, by simp⟩
      · simp only [wrapLoopF, hle, if_false]
        rw [sepJoin_cons _ _ _ h4, h1]
      · intro seg hs
        rcases List.mem_cons.mp hs with h | h
        · subst h; simpa using Nat.min_le_left _ _
        · exact h2 seg h
      · simp [h3]

/-- C7: for `width = -1` the message is returned unwrapped; for
`width - headerSize ≥ 1` the output decomposes into segments of at most
`width - headerSize` characters joined by a newline plus `headerSize`
spaces, whose concatenation is the tab-expanded message. -/
theorem C7_getWrappedIndent (message : List Char) (width : Int) (headerSize : Nat) :
    (width = -1 → getWrappedIndent message width headerSize = message)
    ∧ (1 ≤ width - (headerSize : Int) →
        ∃ segs : List (List Char),
          getWrappedIndent message width headerSize =
            sepJoin ('\n' :: List.replicate headerSize ' ') segs
          ∧ (∀ seg ∈ segs, (seg.length : Int) ≤ width - (headerSize : Int))
          ∧ segs.flatten = expandTabs message) := by
  constructor
  · intro h; simp [getWrappedIndent, h]
  · intro h
    have hw : ¬ width = -1 := by omega
    have hwa : 1 ≤ (width - (headerSize : Int)).toNat := by omega
    obtain ⟨segs, h1, h2, h3, _⟩ :=
      wrapLoopF_spec (width - (headerSize : Int)).toNat headerSize hwa
        (expandTabs message).length (expandTabs message) le_rfl
    refine ⟨segs, ?_, ?_, h3⟩
    · simpa [getWrappedIndent, hw, h, wrapLoop] using h1
    · intro seg hs
      have := h2 seg hs
      omega

theorem C7_getWrappedIndent_witness :
    ∃ segs : List (List Char),
      getWrappedIndent (List.replicate 100 'a') 50 10 =
        sepJoin ('\n' :: List.replicate 10 ' ') segs
      ∧ (∀ seg ∈ segs, (seg.length : Int) ≤ 50 - (10 : Int))
      ∧ segs.flatten = expandTabs (List.replicate 100 'a') := by
  have h := (C7_getWrappedIndent (List.replicate 100 'a') 50 10).2 (by norm_num)
  simpa using h

/-! ## Claim C9: termination of the wrap loop -/

theorem wrapIter_progress (msgLen wrapArea : Int) (hwa : 1 ≤ wrapArea) :
    ∀ n : Nat, msgLen ≤ wrapIter msgLen wrapArea n ∨ (n : Int) ≤ wrapIter msgLen wrapArea n := by
  intro n
  induction n with
  | zero => right; simp [wrapIter]
  | succ k ih =>
    simp only [wrapIter, wrapAdvance]
    rcases ih with h | h
    · left; omega
    · rcases le_or_lt msgLen (wrapIter msgLen wrapArea k) with hm | hm
      · left; omega
      · rcases le_or_lt (wrapIter msgLen wrapArea k + wrapArea) msgLen with hc | hc
        · right; push_cast; omega
        · left; omega

/-- C9: the wrap loop terminates when the sentinel width `-1` short-cuts
it, when the (tab-expanded) message is empty, or when
`width - headerSize ≥ 1` (the loop advances by that amount per
iteration); and this precondition is necessary: with
`width = headerSize = 5` and message `"a"` (so `0 ≤ width ≤ headerSize`
and the message is nonempty) the control variable stays at 0 forever and
the loop never terminates. -/
theorem C9_wrapTermination :
    (∀ (message : List Char) (headerSize : Nat),
        getWrappedIndent message (-1) headerSize = message)
    ∧ (∀ msgLen wrapArea : Int, msgLen ≤ 0 → WrapTerminates msgLen wrapArea)
    ∧ (∀ msgLen wrapArea : Int, 1 ≤ wrapArea → WrapTerminates msgLen wrapArea)
    ∧ (∃ (width : Int) (headerSize : Nat) (message : List Char),
        0 ≤ width ∧ width ≤ (headerSize : Int) ∧ message ≠ [] ∧
        (∀ n, wrapIter (expandTabs message).length (width - headerSize) n = 0) ∧
        ¬ WrapTerminates (expandTabs message).length (width - headerSize)) := by
  refine ⟨?_, ?_, ?_, ?_⟩
  · intro message headerSize; simp [getWrappedIndent]
  · intro msgLen wrapArea h
    exact ⟨0, by simpa [wrapIter] using h⟩
  · intro msgLen wrapArea hwa
    rcases le_or_lt msgLen 0 with h | h
    · exact ⟨0, by simpa [wrapIter] using h⟩
    · rcases wrapIter_progress msgLen wrapArea hwa msgLen.toNat with hdone | hbig
      · exact ⟨msgLen.toNat, hdone⟩
      · exact ⟨msgLen.toNat, by omega⟩
  · have hz : ∀ n, wrapIter ((expandTabs ['a']).length : Int) ((5 : Int) - ((5 : Nat) : Int)) n = 0 := by
      intro n
      induction n with
      | zero => rfl
      | succ k ih =>
        show wrapAdvance _ _ (wrapIter _ _ k) = 0
        rw [ih]
        rfl
    refine ⟨5, 5, ['a'], by norm_num, by norm_num, by simp, hz, ?_⟩
    intro hterm
    obtain ⟨n, hn⟩ := hterm
    rw [hz n] at hn
    have hlen : ((expandTabs ['a']).length : Int) = 1 := rfl
    rw [hlen] at hn
    omega

theorem C9_wrapTermination_witness :
    getWrappedIndent "abc".data (-1) 4 = "abc".data ∧ WrapTerminates 7 2 := by
  exact ⟨C9_wrapTermination.1 "abc".data 4, C9_wrapTermination.2.2.1 7 2 (by norm_num)⟩

theorem escWellFormed_tail {c : Char} {rest : List Char}
    (h : escWellFormed (c :: rest) = true) : escWellFormed rest = true := by
  rw [escWellFormed, Bool.and_eq_true] at h
  exact h.2

theorem escWellFormed_suffix : ∀ {s t : List Char}, t <:+ s →
    escWellFormed s = true → escWellFormed t = true := by
  intro s
  induction s with
  | nil => intro t ht h; rw [List.suffix_nil.mp ht]; exact h
  | cons c rest ih =>
    intro t ht h
    rcases List.suffix_cons_iff.mp ht with rfl | ht'
    · exact h
    · exact ih ht' (escWellFormed_tail h)

theorem takeToM_suffix : ∀ {s r : List Char}, takeToM s = some r → r <:+ s := by
  intro s
  induction s with
  | nil => intro r h; simp [takeToM] at h
  | cons c rest ih =>
    intro r h
    simp only [takeToM] at h
    split at h
    · cases h; exact (List.suffix_cons c rest)
    · split at h
      · cases h
      · exact (ih h).trans (List.suffix_cons c rest)

theorem stripColorsF_zero (s : List Char) : stripColorsF 0 s = s := rfl

theorem noEsc_stripColorsF {s : List Char} (h : '\x1b' ∉ s) :
    ∀ fuel, stripColorsF fuel s = s := by
  intro fuel
  induction fuel generalizing s with
  | zero => rfl
  | succ n ih =>
    cases s with
    | nil => rfl
    | cons c rest =>
      have hc : ¬ c = '\x1b' := fun hc => h (by simp [hc])
      show stripColorsF (n + 1) (c :: rest) = c :: rest
      rw [stripColorsF, if_neg hc, ih (fun hm => h (by simp [hm]))]

theorem escWellFormed_noEsc_out :
    ∀ (fuel : Nat) (s : List Char), s.length ≤ fuel → escWellFormed s = true →
      '\x1b' ∉ stripColorsF fuel s := by
  intro fuel
  induction fuel with
  | zero =>
    intro s hs _
    have : s = [] := List.eq_nil_of_length_eq_zero (Nat.le_zero.mp hs)
    subst this
    simp [stripColorsF]
  | succ n ih =>
    intro s hs hwf
    cases s with
    | nil => simp [stripColorsF]
    | cons c rest =>
      rw [escWellFormed, Bool.and_eq_true] at hwf
      obtain ⟨hseq0, hrest⟩ := hwf
      by_cases hc : c = '\x1b'
      · subst hc
        rw [if_pos rfl] at hseq0
        cases rest with
        | nil => simp [escSeqAt] at hseq0
        | cons c2 v =>
          rw [escSeqAt, Bool.and_eq_true] at hseq0
          obtain ⟨hb, hsome⟩ := hseq0
          have hb' : c2 = '[' := by simpa using hb
          subst hb'
          obtain ⟨r, hr⟩ := Option.isSome_iff_exists.mp hsome
          show '\x1b' ∉ stripColorsF (n + 1) ('\x1b' :: '[' :: v)
          rw [stripColorsF]
          have hesc : escMatchAt ('[' :: v) = takeToM v := rfl
          simp only [if_pos rfl, hesc, hr]
          apply ih r
          · have := takeToM_length hr
            simp only [List.length_cons] at hs
            omega
          · exact escWellFormed_suffix
              ((takeToM_suffix hr).trans
                ((List.suffix_cons '[' v).trans (List.suffix_cons '\x1b' ('[' :: v))))
              (by rw [escWellFormed]
                  simp only [if_pos rfl, Bool.and_eq_true]
                  exact ⟨by rw [escSeqAt]; simp [hr], hrest⟩)
      · rw [stripColorsF, if_neg hc]
        intro hm
        rcases List.mem_cons.mp hm with h | h
        · exact hc h.symm
        · exact ih rest (by simp at hs; omega) hrest h

/-- C8 (as stated) is false: one stripping pass over `"\x1b\x1b[m[m"`
removes the inner `"\x1b[m"`, gluing the leading `ESC` to the remaining
`"[m"` into a fresh match, so a second pass strips again. -/
theorem C8_counterexample :
    stripColors (stripColors ['\x1b', '\x1b', '[', 'm', '[', 'm']) ≠
      stripColors ['\x1b', '\x1b', '[', 'm', '[', 'm'] := by
  decide

/-- C8 (amended): color stripping is idempotent on every string whose
`ESC` characters each begin a complete escape sequence; one pass then
leaves no `ESC` at all, so a second pass is the identity. -/
theorem C8_stripColors_idem (s : List Char) (h : escWellFormed s = true) :
    stripColors (stripColors s) = stripColors s ∧ '\x1b' ∉ stripColors s := by
  have hno : '\x1b' ∉ stripColors s :=
    escWellFormed_noEsc_out s.length s le_rfl h
  exact ⟨noEsc_stripColorsF hno _, hno⟩

theorem C8_stripColors_idem_witness :
    stripColors (stripColors "\x1b[31mred\x1b[0m plain".data) =
        stripColors "\x1b[31mred\x1b[0m plain".data
      ∧ '\x1b' ∉ stripColors "\x1b[31mred\x1b[0m plain".data := by
  exact C8_stripColors_idem "\x1b[31mred\x1b[0m plain".data (by decide)

/-! ## Claim C1: the tag color allocator -/

/-- A lookup of a name with no table entry, when the recency list has
head `a`: the name is assigned `a`, `a` moves to the back, and no other
name's entry changes. -/
theorem getTagColor_fresh {s : ColorState} {tag : List Char} {a : Nat} {rest : List Nat}
    (hf : s.knownTags tag = none) (hlu : s.lastUsed = a :: rest) :
    (getTagColor tag s).1 = a
    ∧ (getTagColor tag s).2.lastUsed = rest ++ [a]
    ∧ (getTagColor tag s).2.knownTags tag = some a
    ∧ (∀ t, t ≠ tag → (getTagColor tag s).2.knownTags t = s.knownTags t) := by
  refine ⟨?_, ?_, ?_, ?_⟩
  · simp [getTagColor, hf, hlu]
  · simp [getTagColor, hf, hlu, List.erase_cons_head]
  · simp [getTagColor, hf, hlu]
  · intro t ht
    simp [getTagColor, hf, hlu, ht]

/-- A lookup of a name with an existing entry returns that entry and
leaves it in place. -/
theorem getTagColor_known {s : ColorState} {tag : List Char} {c : Nat}
    (h : s.knownTags tag = some c) :
    (getTagColor tag s).1 = c ∧ (getTagColor tag s).2.knownTags tag = some c := by
  simp [getTagColor, h]

/-- The recency-list component of a call, in terms of the returned color. -/
theorem getTagColor_lastUsed_eq (tag : List Char) (s : ColorState) :
    (getTagColor tag s).2.lastUsed =
      if (getTagColor tag s).1 ∈ s.lastUsed
      then s.lastUsed.erase (getTagColor tag s).1 ++ [(getTagColor tag s).1]
      else s.lastUsed := by
  simp only [getTagColor]

/-- When the resolved color is in the recency list, it is moved to the
back. -/
theorem getTagColor_moveBack (tag : List Char) (s : ColorState)
    (h : (getTagColor tag s).1 ∈ s.lastUsed) :
    (getTagColor tag s).2.lastUsed =
      s.lastUsed.erase (getTagColor tag s).1 ++ [(getTagColor tag s).1] := by
  rw [getTagColor_lastUsed_eq, if_pos h]

/-- Every call permutes the recency list. -/
theorem getTagColor_perm (tag : List Char) (s : ColorState) :
    (getTagColor tag s).2.lastUsed.Perm s.lastUsed := by
  rw [getTagColor_lastUsed_eq]
  by_cases h : (getTagColor tag s).1 ∈ s.lastUsed
  · rw [if_pos h]
    exact (List.perm_append_singleton _ _).trans (List.perm_cons_erase h).symm
  · rw [if_neg h]

theorem runTagColors_perm (tags : List (List Char)) :
    ∀ s : ColorState, (runTagColors tags s).lastUsed.Perm s.lastUsed := by
  induction tags with
  | nil => intro s; exact List.Perm.refl _
  | cons t ts ih =>
    intro s
    exact (ih ((getTagColor t s).2)).trans (getTagColor_perm t s)

/-- C1: a name with no table entry is assigned the front color of the
recency list; any call whose resolved color is in the recency list moves
it to the back; after any call sequence from the initial state the
recency list is a permutation of the 6-color palette; a repeat lookup
keeps its color; and after a tag's lookup is followed by lookups of six
distinct names absent from the table, the sixth receives that tag's
color. -/
theorem C1_getTagColor :
    (∀ (s : ColorState) (tag : List Char) (a : Nat) (rest : List Nat),
        s.knownTags tag = none → s.lastUsed = a :: rest →
        (getTagColor tag s).1 = a ∧ (getTagColor tag s).2.knownTags tag = some a)
    ∧ (∀ (tag : List Char) (s : ColorState), (getTagColor tag s).1 ∈ s.lastUsed →
        (getTagColor tag s).2.lastUsed =
          s.lastUsed.erase (getTagColor tag s).1 ++ [(getTagColor tag s).1])
    ∧ (∀ tags : List (List Char),
        (runTagColors tags initColorState).lastUsed.Perm LAST_USED_INIT)
    ∧ (∀ (s : ColorState) (tag : List Char) (c : Nat), s.knownTags tag = some c →
        (getTagColor tag s).1 = c ∧ (getTagColor tag s).2.knownTags tag = some c)
    ∧ (∀ (s : ColorState) (t n1 n2 n3 n4 n5 n6 : List Char),
        s.lastUsed.length = 6 → (getTagColor t s).1 ∈ s.lastUsed →
        List.Pairwise (· ≠ ·) [n1, n2, n3, n4, n5, n6] →
        (∀ n ∈ [n1, n2, n3, n4, n5, n6], (getTagColor t s).2.knownTags n = none) →
        (getTagColor n6 (runTagColors [n1, n2, n3, n4, n5] (getTagColor t s).2)).1 =
          (getTagColor t s).1) := by
  refine ⟨?_, ?_, ?_, ?_, ?_⟩
  · intro s tag a rest hf hlu
    obtain ⟨h1, _, h3, _⟩ := getTagColor_fresh hf hlu
    exact ⟨h1, h3⟩
  · intro tag s h
    exact getTagColor_moveBack tag s h
  · intro tags
    exact runTagColors_perm tags initColorState
  · intro s tag c h
    exact getTagColor_known h
  · intro s t n1 n2 n3 n4 n5 n6 hlen hmem hpw hfresh
    set c := (getTagColor t s).1 with hc
    set s1 := (getTagColor t s).2 with hs1
    have hlu1 : s1.lastUsed = s.lastUsed.erase c ++ [c] := getTagColor_moveBack t s hmem
    have he5 : (s.lastUsed.erase c).length = 5 := by
      rw [List.length_erase_of_mem hmem, hlen]
    obtain ⟨a1, a2, a3, a4, a5, he⟩ :
        ∃ a1 a2 a3 a4 a5, s.lastUsed.erase c = [a1, a2, a3, a4, a5] := by
      rcases hE : s.lastUsed.erase c with _ | ⟨a1, _ | ⟨a2, _ | ⟨a3, _ | ⟨a4, _ | ⟨a5, _ | ⟨a6, tl⟩⟩⟩⟩⟩⟩ <;>
        simp_all
    rw [he] at hlu1
    rcases hpw with _ | ⟨p1, _ | ⟨p2, _ | ⟨p3, _ | ⟨p4, _ | ⟨p5, _⟩⟩⟩⟩⟩
    have hne21 : n2 ≠ n1 := fun h => p1 n2 (by simp) h.symm
    have hne31 : n3 ≠ n1 := fun h => p1 n3 (by simp) h.symm
    have hne41 : n4 ≠ n1 := fun h => p1 n4 (by simp) h.symm
    have hne51 : n5 ≠ n1 := fun h => p1 n5 (by simp) h.symm
    have hne61 : n6 ≠ n1 := fun h => p1 n6 (by simp) h.symm
    have hne32 : n3 ≠ n2 := fun h => p2 n3 (by simp) h.symm
    have hne42 : n4 ≠ n2 := fun h => p2 n4 (by simp) h.symm
    have hne52 : n5 ≠ n2 := fun h => p2 n5 (by simp) h.symm
    have hne62 : n6 ≠ n2 := fun h => p2 n6 (by simp) h.symm
    have hne43 : n4 ≠ n3 := fun h => p3 n4 (by simp) h.symm
    have hne53 : n5 ≠ n3 := fun h => p3 n5 (by simp) h.symm
    have hne63 : n6 ≠ n3 := fun h => p3 n6 (by simp) h.symm
    have hne54 : n5 ≠ n4 := fun h => p4 n5 (by simp) h.symm
    have hne64 : n6 ≠ n4 := fun h => p4 n6 (by simp) h.symm
    have hne65 : n6 ≠ n5 := fun h => p5 n6 (by simp) h.symm
    have hf1 : s1.knownTags n1 = none := hfresh n1 (by simp)
    have hf2 : s1.knownTags n2 = none := hfresh n2 (by simp)
    have hf3 : s1.knownTags n3 = none := hfresh n3 (by simp)
    have hf4 : s1.knownTags n4 = none := hfresh n4 (by simp)
    have hf5 : s1.knownTags n5 = none := hfresh n5 (by simp)
    have hf6 : s1.knownTags n6 = none := hfresh n6 (by simp)
    have hrun : runTagColors [n1, n2, n3, n4, n5] s1 =
        (getTagColor n5 (getTagColor n4 (getTagColor n3 (getTagColor n2
          (getTagColor n1 s1).2).2).2).2).2 := by
      simp [runTagColors, List.foldl]
    obtain ⟨_, hl2, _, hk2⟩ := getTagColor_fresh hf1
      (show s1.lastUsed = a1 :: ([a2, a3, a4, a5] ++ [c]) by simpa using hlu1)
    set s2 := (getTagColor n1 s1).2 with hs2
    obtain ⟨_, hl3, _, hk3⟩ := getTagColor_fresh
      (show s2.knownTags n2 = none by rw [hk2 n2 hne21]; exact hf2)
      (show s2.lastUsed = a2 :: ([a3, a4, a5, c] ++ [a1]) by simpa using hl2)
    set s3 := (getTagColor n2 s2).2 with hs3
    obtain ⟨_, hl4, _, hk4⟩ := getTagColor_fresh
      (show s3.knownTags n3 = none by rw [hk3 n3 hne32, hk2 n3 hne31]; exact hf3)
      (show s3.lastUsed = a3 :: ([a4, a5, c, a1] ++ [a2]) by simpa using hl3)
    set s4 := (getTagColor n3 s3).2 with hs4
    obtain ⟨_, hl5, _, hk5⟩ := getTagColor_fresh
      (show s4.knownTags n4 = none by
        rw [hk4 n4 hne43, hk3 n4 hne42, hk2 n4 hne41]; exact hf4)
      (show s4.lastUsed = a4 :: ([a5, c, a1, a2] ++ [a3]) by simpa using hl4)
    set s5 := (getTagColor n4 s4).2 with hs5
    obtain ⟨_, hl6, _, hk6⟩ := getTagColor_fresh
      (show s5.knownTags n5 = none by
        rw [hk5 n5 hne54, hk4 n5 hne53, hk3 n5 hne52, hk2 n5 hne51]; exact hf5)
      (show s5.lastUsed = a5 :: ([c, a1, a2, a3] ++ [a4]) by simpa using hl5)
    set s6 := (getTagColor n5 s5).2 with hs6
    obtain ⟨hres, _, _, _⟩ := getTagColor_fresh
      (show s6.knownTags n6 = none by
        rw [hk6 n6 hne65, hk5 n6 hne64, hk4 n6 hne63, hk3 n6 hne62, hk2 n6 hne61]
        exact hf6)
      (show s6.lastUsed = c :: ([a1, a2, a3, a4] ++ [a5]) by simpa using hl6)
    rw [hrun]
    exact hres

/-- C3: the line classifies simultaneously as a main log record (level
`I`, tag `ActivityManager`, pid `1234`) and as a process-start event via
`PID_START`, the first of the three variants tried, yielding started pid
`1234`, package `com.example.app` and target `activity ...`; both
recognizers are applied to the same raw line. -/
theorem C3_simultaneous :
    logLineMatch c3Line =
      some ('I', "ActivityManager".data, "1234".data,
        "Start proc 1234:com.example.app/u0a123 for activity ...".data)
    ∧ pidStartMatch c3Line =
      some ("1234".data, "com.example.app".data, "activity ...".data)
    ∧ getStartedProcesses c3Line =
      some ("1234".data, [], [], "com.example.app".data, "activity ...".data) := by
  refine ⟨by decide, by decide, by decide⟩

/-! ## Claim C10: the severity-floor edge case -/

/-- C10: the main recognizer accepts any single uppercase letter as the
level, and the severity gate of `writeLogLine` never suppresses a level
letter outside `VDIWEF`, whatever the configured minimum level. -/
theorem C10_severityFloor :
    (∀ lvl : Char, 'A' ≤ lvl → lvl ≤ 'Z' →
        logLineMatch (lvl :: '/' :: "Tag( 7): hello".data) =
          some (lvl, "Tag".data, "7".data, "hello".data))
    ∧ (∀ (lvl : Char) (logLevel : Nat), lvl ∉ LOG_LEVELS →
        severitySuppressed lvl logLevel = false) := by
  constructor
  · intro lvl h1 h2
    have hcond : 'A' ≤ lvl ∧ lvl ≤ 'Z' := ⟨h1, h2⟩
    simp only [logLineMatch, hcond, if_true]
    rfl
  · intro lvl logLevel hmem
    simp only [LOG_LEVELS, List.mem_cons, List.not_mem_nil, or_false, not_or] at hmem
    obtain ⟨hV, hD, hI, hW, hE, hF⟩ := hmem
    simp [severitySuppressed, LOG_LEVELS_MAP, List.lookup,
      beq_eq_false_iff_ne.mpr hV, beq_eq_false_iff_ne.mpr hD, beq_eq_false_iff_ne.mpr hI,
      beq_eq_false_iff_ne.mpr hW, beq_eq_false_iff_ne.mpr hE, beq_eq_false_iff_ne.mpr hF]

theorem C10_severityFloor_witness :
    logLineMatch ('Q' :: '/' :: "Tag( 7): hello".data) =
        some ('Q', "Tag".data, "7".data, "hello".data)
      ∧ severitySuppressed 'Q' 5 = false := by
  exact ⟨C10_severityFloor.1 'Q' (by decide) (by decide),
    C10_severityFloor.2 'Q' 5 (by decide)⟩

/-- C4 (as stated) is false: with pid `1234` present in the map but the
package filter set to `["com.other"]`, the death line removes nothing and
produces no end banner, because `getDeadProcesses` also requires the
package token from the message to satisfy the filter predicate. -/
theorem C4_counterexample :
    "1234".data ∈ c4State.pidsMap.map Prod.fst
    ∧ logLineMatch c4Line = some ('I', "ActivityManager".data, "77".data, c4DeathMsg)
    ∧ (writeLogLine c4Line c4State c4Args c4TW initColorState).outputs.any OutEvent.isEnd = false
    ∧ (writeLogLine c4Line c4State c4Args c4TW initColorState).state.pidsMap = c4State.pidsMap := by
  decide

theorem getDeadProcesses_c4DeathMsg (pidsSet named catchall : List (List Char)) :
    getDeadProcesses "ActivityManager".data c4DeathMsg pidsSet named catchall =
      if isMatchingPackage "com.example.app".data named catchall
          && pidsSet.contains "1234".data then
        some ("1234".data, "com.example.app".data)
      else none := by
  have hk : pidKillMatch c4DeathMsg = none := by decide
  have hlv : pidLeaveMatch c4DeathMsg = none := by decide
  have hd : pidDeathMatch c4DeathMsg = some ("com.example.app".data, "1234".data) := by
    decide
  simp only [getDeadProcesses, hk, hlv, hd]
  rw [if_neg (by simp)]
  split <;> simp_all

set_option maxHeartbeats 1000000 in
/-- C4 (amended): for a main log line with tag `ActivityManager` and
message `"Process com.example.app (pid 1234) has died."` (and no
process-start match), if pid `1234` is tracked and the message's package
token `com.example.app` satisfies the package filter predicate, then
processing removes `1234` from the map and emits an end banner; if `1234`
is not tracked, the map is unchanged and no end banner is produced;
termination patterns are only evaluated for the activity-manager tag. -/
theorem C4_processDeath
    (line : List Char) (state : State) (args : Args) (tw : TextWriter) (cs : ColorState)
    (level : Char) (tag0 owner : List Char)
    (hnt : nativeTagsMatch line = false)
    (hll : logLineMatch line = some (level, tag0, owner, c4DeathMsg))
    (htag : pyStrip tag0 = "ActivityManager".data)
    (hsp : getStartedProcesses line = none) :
    ("1234".data ∈ state.pidsMap.map Prod.fst →
      isMatchingPackage "com.example.app".data state.namedProcesses state.catchallPackage = true →
      (writeLogLine line state args tw cs).state.pidsMap = dictErase "1234".data state.pidsMap
      ∧ (writeLogLine line state args tw cs).outputs.any OutEvent.isEnd = true)
    ∧ ("1234".data ∉ state.pidsMap.map Prod.fst →
      (writeLogLine line state args tw cs).state.pidsMap = state.pidsMap
      ∧ (writeLogLine line state args tw cs).outputs.any OutEvent.isEnd = false)
    ∧ (∀ (t : List Char) (pidsSet named catchall : List (List Char)),
        t ≠ "ActivityManager".data →
        getDeadProcesses t c4DeathMsg pidsSet named catchall = none) := by
  refine ⟨?_, ?_, ?_⟩
  · intro hmem hmatch
    have hcont : (state.pidsMap.map Prod.fst).contains "1234".data = true :=
      List.elem_iff.mpr hmem
    have hdead : getDeadProcesses (pyStrip tag0) c4DeathMsg (state.pidsMap.map Prod.fst)
        state.namedProcesses state.catchallPackage =
        some ("1234".data, "com.example.app".data) := by
      rw [htag, getDeadProcesses_c4DeathMsg, if_pos (by rw [hmatch, hcont]; rfl)]
    simp only [writeLogLine, hnt, Bool.false_eq_true, if_false, hll, hsp, hdead]
    split
    · simp [OutEvent.isEnd]
    · split
      · simp [OutEvent.isEnd]
      · split
        · simp [OutEvent.isEnd]
        · split
          · simp [OutEvent.isEnd]
          · simp [OutEvent.isEnd]
  · intro hmem
    have hcont : (state.pidsMap.map Prod.fst).contains "1234".data = false := by
      cases hx : (state.pidsMap.map Prod.fst).contains "1234".data with
      | false => rfl
      | true => exact absurd (List.elem_iff.mp hx) hmem
    have hdead : getDeadProcesses (pyStrip tag0) c4DeathMsg (state.pidsMap.map Prod.fst)
        state.namedProcesses state.catchallPackage = none := by
      rw [htag, getDeadProcesses_c4DeathMsg, if_neg (by rw [hcont]; simp)]
    simp only [writeLogLine, hnt, Bool.false_eq_true, if_false, hll, hsp, hdead]
    split
    · simp [OutEvent.isEnd]
    · split
      · simp [OutEvent.isEnd]
      · split
        · simp [OutEvent.isEnd]
        · split
          · simp [OutEvent.isEnd]
          · simp [OutEvent.isEnd]
  · intro t pidsSet named catchall ht
    simp only [getDeadProcesses]
    rw [if_pos ht]

theorem C4_processDeath_witness :
    (writeLogLine c4Line { c4State with catchallPackage := ["com.example.app".data] }
        c4Args c4TW initColorState).state.pidsMap = dictErase "1234".data c4State.pidsMap
    ∧ (writeLogLine c4Line { c4State with catchallPackage := ["com.example.app".data] }
        c4Args c4TW initColorState).outputs.any OutEvent.isEnd = true := by
  exact (C4_processDeath c4Line { c4State with catchallPackage := ["com.example.app".data] }
    c4Args c4TW initColorState 'I' "ActivityManager".data "77".data
    (by decide) (by decide) (by decide) (by decide)).1 (by decide) (by decide)

/-- C5 (as stated) is false: the started pid is not recorded in the
state's `appPID` when the triggering line is itself suppressed, because
`appPid` is a plain local that is only written back to the state on the
final line of `writeLogLine`. -/
theorem C5_counterexample :
    getStartedProcesses c5Line = some ("10".data, [], [], "com.app".data, "service X".data)
    ∧ isMatchingPackage "com.app".data c5State.namedProcesses c5State.catchallPackage = true
    ∧ (writeLogLine c5Line c5State c4Args c4TW initColorState).outputs.any
        OutEvent.isStart = true
    ∧ ¬ (writeLogLine c5Line c5State c4Args c4TW initColorState).state.appPID =
        some "10".data := by
  decide

set_option maxHeartbeats 1000000 in
/-- C5 (amended): for every line that is a main log line (and not
native-tags noise) and matches a process-start variant whose package
passes the filter (and that does not simultaneously fire the termination
path), processing inserts/overwrites `pidsMap[startedPid] = startedPackage`
and emits a start banner; the state's `currentAppPid` becomes the started
pid only when the line is not subsequently suppressed by the filters, and
is unchanged when it is suppressed. -/
theorem C5_processStart
    (line : List Char) (state : State) (args : Args) (tw : TextWriter) (cs : ColorState)
    (level : Char) (tag0 owner message : List Char)
    (sPID sUID sGIDs sPkg sTgt : List Char)
    (hnt : nativeTagsMatch line = false)
    (hll : logLineMatch line = some (level, tag0, owner, message))
    (hsp : getStartedProcesses line = some (sPID, sUID, sGIDs, sPkg, sTgt))
    (hmatch : isMatchingPackage sPkg state.namedProcesses state.catchallPackage = true)
    (hdead : getDeadProcesses (pyStrip tag0) message
        ((dictInsert sPID sPkg state.pidsMap).map Prod.fst)
        state.namedProcesses state.catchallPackage = none) :
    (writeLogLine line state args tw cs).state.pidsMap = dictInsert sPID sPkg state.pidsMap
    ∧ (writeLogLine line state args tw cs).outputs.any OutEvent.isStart = true
    ∧ ((writeLogLine line state args tw cs).outputs.any OutEvent.isLog = true →
        (writeLogLine line state args tw cs).state.appPID = some sPID)
    ∧ ((writeLogLine line state args tw cs).outputs.any OutEvent.isLog = false →
        (writeLogLine line state args tw cs).state.appPID = state.appPID) := by
  simp only [writeLogLine, hnt, Bool.false_eq_true, if_false, hll, hsp, hmatch,
    eq_self_iff_true, if_true, hdead]
  split
  · simp [OutEvent.isStart, OutEvent.isLog]
  · split
    · simp [OutEvent.isStart, OutEvent.isLog]
    · split
      · simp [OutEvent.isStart, OutEvent.isLog]
      · split
        · simp [OutEvent.isStart, OutEvent.isLog]
        · simp [OutEvent.isStart, OutEvent.isLog]

theorem C5_processStart_witness :
    (writeLogLine c5wLine c5State c4Args c4TW initColorState).state.pidsMap =
      dictInsert "10".data "com.app".data c5State.pidsMap
    ∧ (writeLogLine c5wLine c5State c4Args c4TW initColorState).outputs.any
        OutEvent.isStart = true
    ∧ ((writeLogLine c5wLine c5State c4Args c4TW initColorState).outputs.any
          OutEvent.isLog = true →
        (writeLogLine c5wLine c5State c4Args c4TW initColorState).state.appPID =
          some "10".data)
    ∧ ((writeLogLine c5wLine c5State c4Args c4TW initColorState).outputs.any
          OutEvent.isLog = false →
        (writeLogLine c5wLine c5State c4Args c4TW initColorState).state.appPID =
          c5State.appPID) := by
  exact C5_processStart c5wLine c5State c4Args c4TW initColorState
    'I' "ActivityManager".data "10".data
    "Start proc 10:com.app/u0a1 for service X".data
    "10".data [] [] "com.app".data "service X".data
    (by decide) (by decide) (by decide) (by decide) (by decide)



theorem tagSection_lastTag_of_none (args : Args) (tag : List Char) (cs : ColorState) :
    (tagSection args tag none cs).2.2.2 = if 0 < args.tagWidth then some tag else none := by
  simp only [tagSection]
  split
  · simp
  · rfl

/-- The C6 counterexample uses the C5 scenario: a suppressed
banner-emitting line leaves `lastRenderedTag` at its previous value. -/
theorem C6_counterexample :
    (writeLogLine c5Line c5State c4Args c4TW initColorState).outputs.any
        (fun e => e.isStart || e.isEnd) = true
    ∧ (writeLogLine c5Line c5State c4Args c4TW initColorState).state.lastTag =
        some "T".data
    ∧ ¬ (writeLogLine c5Line c5State c4Args c4TW initColorState).state.lastTag = none := by
  decide

set_option maxHeartbeats 4000000 in
/-- C6 (amended): for a main log line whose processing emits a start or
end banner, the banner resets the local last-rendered tag, but the
persisted `lastTag` is none afterwards only in restricted cases: when the
line is itself suppressed by the filters, `lastTag` keeps its previous
value; when the line is printed, `lastTag` becomes the line's own tag if
the tag width is positive (the reset makes the tag column render on that
very line) and none only if the tag width is zero. -/
theorem C6_lastTagReset
    (line : List Char) (state : State) (args : Args) (tw : TextWriter) (cs : ColorState)
    (level : Char) (tag0 owner message : List Char)
    (hnt : nativeTagsMatch line = false)
    (hll : logLineMatch line = some (level, tag0, owner, message)) :
    ((writeLogLine line state args tw cs).outputs.any (fun e => e.isStart || e.isEnd) = true →
      (writeLogLine line state args tw cs).outputs.any OutEvent.isLog = false →
      (writeLogLine line state args tw cs).state.lastTag = state.lastTag)
    ∧ ((writeLogLine line state args tw cs).outputs.any (fun e => e.isStart || e.isEnd) = true →
      (writeLogLine line state args tw cs).outputs.any OutEvent.isLog = true →
      0 < args.tagWidth →
      (writeLogLine line state args tw cs).state.lastTag = some (pyStrip tag0))
    ∧ ((writeLogLine line state args tw cs).outputs.any (fun e => e.isStart || e.isEnd) = true →
      (writeLogLine line state args tw cs).outputs.any OutEvent.isLog = true →
      args.tagWidth = 0 →
      (writeLogLine line state args tw cs).state.lastTag = none) := by
  simp only [writeLogLine, hnt, Bool.false_eq_true, if_false, hll]
  rcases hS : getStartedProcesses line with _ | ⟨p, u, g, pk, tg⟩ <;>
    simp only [hS]
  · rcases hD : getDeadProcesses (pyStrip tag0) message (state.pidsMap.map Prod.fst)
        state.namedProcesses state.catchallPackage with _ | ⟨dp, dn⟩ <;>
      simp only [hD] <;>
      (split <;>
        [(refine ⟨fun hb hl => ?_, fun hb hl htw => ?_, fun hb hl htw => ?_⟩ <;>
            simp_all [tagSection_lastTag_of_none, OutEvent.isStart, OutEvent.isEnd, OutEvent.isLog]);
         (split <;>
          [(refine ⟨fun hb hl => ?_, fun hb hl htw => ?_, fun hb hl htw => ?_⟩ <;>
              simp_all [tagSection_lastTag_of_none, OutEvent.isStart, OutEvent.isEnd, OutEvent.isLog]);
           (split <;>
            [(refine ⟨fun hb hl => ?_, fun hb hl htw => ?_, fun hb hl htw => ?_⟩ <;>
                simp_all [tagSection_lastTag_of_none, OutEvent.isStart, OutEvent.isEnd, OutEvent.isLog]);
             (split <;>
              (refine ⟨fun hb hl => ?_, fun hb hl htw => ?_, fun hb hl htw => ?_⟩ <;>
                simp_all [tagSection_lastTag_of_none, OutEvent.isStart, OutEvent.isEnd, OutEvent.isLog]))])])])
  · by_cases hm : isMatchingPackage pk state.namedProcesses state.catchallPackage = true
    · simp only [hm, eq_self_iff_true, if_true]
      rcases hD : getDeadProcesses (pyStrip tag0) message ((dictInsert p pk state.pidsMap).map Prod.fst)
          state.namedProcesses state.catchallPackage with _ | ⟨dp, dn⟩ <;>
        simp only [hD] <;>
        (split <;>
          [(refine ⟨fun hb hl => ?_, fun hb hl htw => ?_, fun hb hl htw => ?_⟩ <;>
              simp_all [tagSection_lastTag_of_none, OutEvent.isStart, OutEvent.isEnd, OutEvent.isLog]);
           (split <;>
            [(refine ⟨fun hb hl => ?_, fun hb hl htw => ?_, fun hb hl htw => ?_⟩ <;>
                simp_all [tagSection_lastTag_of_none, OutEvent.isStart, OutEvent.isEnd, OutEvent.isLog]);
             (split <;>
              [(refine ⟨fun hb hl => ?_, fun hb hl htw => ?_, fun hb hl htw => ?_⟩ <;>
                  simp_all [tagSection_lastTag_of_none, OutEvent.isStart, OutEvent.isEnd, OutEvent.isLog]);
               (split <;>
                (refine ⟨fun hb hl => ?_, fun hb hl htw => ?_, fun hb hl htw => ?_⟩ <;>
                  simp_all [tagSection_lastTag_of_none, OutEvent.isStart, OutEvent.isEnd, OutEvent.isLog]))])])])
    · simp only [Bool.not_eq_true] at hm
      simp only [hm, Bool.false_eq_true, if_false]
      rcases hD : getDeadProcesses (pyStrip tag0) message (state.pidsMap.map Prod.fst)
          state.namedProcesses state.catchallPackage with _ | ⟨dp, dn⟩ <;>
        simp only [hD] <;>
        (split <;>
          [(refine ⟨fun hb hl => ?_, fun hb hl htw => ?_, fun hb hl htw => ?_⟩ <;>
              simp_all [tagSection_lastTag_of_none, OutEvent.isStart, OutEvent.isEnd, OutEvent.isLog]);
           (split <;>
            [(refine ⟨fun hb hl => ?_, fun hb hl htw => ?_, fun hb hl htw => ?_⟩ <;>
                simp_all [tagSection_lastTag_of_none, OutEvent.isStart, OutEvent.isEnd, OutEvent.isLog]);
             (split <;>
              [(refine ⟨fun hb hl => ?_, fun hb hl htw => ?_, fun hb hl htw => ?_⟩ <;>
                  simp_all [tagSection_lastTag_of_none, OutEvent.isStart, OutEvent.isEnd, OutEvent.isLog]);
               (split <;>
                (refine ⟨fun hb hl => ?_, fun hb hl htw => ?_, fun hb hl htw => ?_⟩ <;>
                  simp_all [tagSection_lastTag_of_none, OutEvent.isStart, OutEvent.isEnd, OutEvent.isLog]))])])])

theorem C6_lastTagReset_witness :
    (writeLogLine c5wLine c5State c4Args c4TW initColorState).state.lastTag =
      some "ActivityManager".data := by
  exact (C6_lastTagReset c5wLine c5State c4Args c4TW initColorState 'I'
    "ActivityManager".data "10".data "Start proc 10:com.app/u0a1 for service X".data
    (by decide) (by decide)).2.1 (by decide) (by decide) (by decide)

theorem C1_getTagColor_witness :
    (getTagColor "freshTag".data initColorState).1 = RED
    ∧ (getTagColor "n6".data (runTagColors
        ["n1".data, "n2".data, "n3".data, "n4".data, "n5".data]
        (getTagColor "freshTag".data initColorState).2)).1 =
      (getTagColor "freshTag".data initColorState).1 := by
  constructor
  · exact (C1_getTagColor.1 initColorState "freshTag".data RED [BLUE, CYAN, GREEN, YELLOW, MAGENTA]
      (by decide) rfl).1
  · exact C1_getTagColor.2.2.2.2 initColorState "freshTag".data
      "n1".data "n2".data "n3".data "n4".data "n5".data "n6".data
      (by decide) (by decide) (by decide) (by decide)

end Pidcat

